import Mathlib

/-!
Verification of the network plugin core of F24-Group13-glances
(`glances/plugins/network/__init__.py`).

Python strings are embedded as `List Char`; each Python string operation used
by the plugin is translated as a structurally recursive Lean function.
-/

/-- Python strings, embedded as lists of characters. -/
abbrev PyStr := List Char

/-- Coerce a Lean string literal to the `PyStr` embedding. -/
def strL (s : String) : PyStr :=
  s.data

/-- The ASCII whitespace characters stripped by Python `str.strip()`. -/
def isPySpace (c : Char) : Bool :=
  c = ' ' || c = '\t' || c = '\n' || c = '\x0d' || c = '\x0b' || c = '\x0c'

/-- Python `str.strip()`: drop leading and trailing whitespace. -/
def pyStrip (s : PyStr) : PyStr :=
  ((s.dropWhile isPySpace).reverse.dropWhile isPySpace).reverse

/-- Python `str.upper()` (ASCII case mapping, which covers MAC/OUI text). -/
def pyUpper (s : PyStr) : PyStr :=
  s.map Char.toUpper

/-- Python `str.split(sep)` for a single-character separator. -/
def pySplit (c : Char) : PyStr → List PyStr
  | [] => [[]]
  | x :: xs =>
    let r := pySplit c xs
    if x = c then [] :: r else (x :: r.headI) :: r.tail

/-- Python `str.replace(old, new)` for single-character `old` and `new`. -/
def replaceChar (a b : Char) (s : PyStr) : PyStr :=
  s.map fun c => if c = a then b else c

/-- Python `str.zfill(w)`: left-pad with zeros to width `w`, keeping a
leading sign character in front of the padding. -/
def zfill (w : Nat) (s : PyStr) : PyStr :=
  match s with
  | [] => List.replicate w '0'
  | c :: rest =>
    if c = '+' ∨ c = '-' then
      c :: (List.replicate (w - (rest.length + 1)) '0' ++ rest)
    else
      List.replicate (w - (c :: rest).length) '0' ++ (c :: rest)

/-- Python `''.join(xs)`. -/
def concatAll (l : List PyStr) : PyStr :=
  match l with
  | [] => []
  | g :: gs => g ++ concatAll gs

/-- A list of strings joined by a single-character delimiter (used to render
MAC addresses such as `"E0:43:DB:12:34:56"`). -/
def joinWith (c : Char) : List PyStr → PyStr
  | [] => []
  | [g] => g
  | g :: gs => g ++ c :: joinWith c gs

/-- Python `dict.get`: the value stored for a key, if any. -/
def dictGet (d : List (PyStr × PyStr)) (k : PyStr) : Option PyStr :=
  match d with
  | [] => none
  | (k', v) :: rest => if k' = k then some v else dictGet rest k

/-- Remove all bindings of a key from an association list. -/
def dictRemove (d : List (PyStr × PyStr)) (k : PyStr) : List (PyStr × PyStr) :=
  match d with
  | [] => []
  | (k', v) :: rest => if k' = k then dictRemove rest k else (k', v) :: dictRemove rest k

/-- Python `d[k] = v` on a dict, observed through `dictGet`: the new binding
shadows (replaces) any earlier binding of the same key. -/
def dictSet (d : List (PyStr × PyStr)) (k v : PyStr) : List (PyStr × PyStr) :=
  (k, v) :: dictRemove d k

/-- Python `int()` on a non-negative or negative rational: truncation toward
zero (rates in the plugin are non-negative). -/
def pyInt (q : ℚ) : ℤ :=
  Int.tdiv q.num q.den

/-- The sentinel vendor string of the plugin. -/
def unknownVendor : PyStr :=
  strL "Unknown Vendor"

/-- The MAC-prefix normalization performed inline by
`PluginModel.get_vendor` (lines 311-331 of the plugin): if one of `:`, `-`,
`.` occurs, replace `-` and `.` by `:`, split on `:`, `zfill(2)` each group,
join the first three groups and upper-case; otherwise upper-case the raw
string and take its first 6 characters. -/
def macLookupKey (mac : PyStr) : PyStr :=
  if ':' ∈ mac ∨ '-' ∈ mac ∨ '.' ∈ mac then
    let bytesList := pySplit ':' (replaceChar '.' ':' (replaceChar '-' ':' mac))
    let normalized := bytesList.map (zfill 2)
    pyUpper (concatAll (normalized.take 3))
  else
    (pyUpper mac).take 6

/-- `PluginModel.get_vendor` (lines 300-347): look the normalized key up in
the vendor dict; a missing key, or a stored value that is falsy (the empty
string), yields `"Unknown Vendor"`. -/
def get_vendor (mac : PyStr) (vendor_db : List (PyStr × PyStr)) : PyStr :=
  let vendor := dictGet vendor_db (macLookupKey mac)
  match vendor with
  | some v => if v ≠ [] then v else unknownVendor
  | none => unknownVendor

/-- One line of `PluginModel.load_vendor_database` (lines 275-289): strip the
line; skip it when empty or starting with `#`; split on tab; with at least two
fields, strip and upper-case the first field and strip the second; store the
pair when the first field has exactly 6 characters. -/
def parseVendorLine (d : List (PyStr × PyStr)) (line : PyStr) : List (PyStr × PyStr) :=
  let l := pyStrip line
  if l = [] ∨ l.head? = some '#' then d
  else
    let parts := pySplit '\t' l
    if 2 ≤ parts.length then
      let macPfx := pyUpper (pyStrip (parts.getD 0 []))
      let vendorName := pyStrip (parts.getD 1 [])
      if macPfx.length = 6 then dictSet d macPfx vendorName else d
    else d

/-- `PluginModel.load_vendor_database` (lines 251-298): the file content is
`some lines` when an existing OUI file was read, `none` when the file is
missing or unreadable; in the latter case the dict stays empty. -/
def load_vendor_database (file : Option (List PyStr)) : List (PyStr × PyStr) :=
  match file with
  | none => []
  | some lines => lines.foldl parseVendorLine []

/-- Alert severities (`OK`, `CAREFUL`, `WARNING`, `CRITICAL`, and the
unclassified `DEFAULT`). -/
inductive AlertLevel where
  | ok
  | careful
  | warning
  | critical
  | default
deriving DecidableEq

/-- Modelled from the spec: compare a value against ascending
CAREFUL/WARNING/CRITICAL boundaries and return the highest boundary reached,
else OK (spec section 4.4). -/
def classifyRate (v c w cr : ℚ) : AlertLevel :=
  if cr ≤ v then AlertLevel.critical
  else if w ≤ v then AlertLevel.warning
  else if c ≤ v then AlertLevel.careful
  else AlertLevel.ok

/-- Modelled from the spec: `GlancesPluginModel.get_alert` (base-class code,
not part of this repository's sources). Consult the configured thresholds
under `header`; when present classify against them; otherwise, when a
maximum is supplied, classify against configured default fractions
`fr = (careful, warning, critical)` of that maximum; otherwise DEFAULT. -/
def get_alert (ts : PyStr → Option (ℚ × ℚ × ℚ)) (fr : ℚ × ℚ × ℚ)
    (current : ℚ) (maximum : Option ℚ) (header : PyStr) : AlertLevel :=
  match ts header with
  | some (c, w, cr) => classifyRate current c w cr
  | none =>
    match maximum with
    | some m => classifyRate current (fr.1 * m) (fr.2.1 * m) (fr.2.2 * m)
    | none => AlertLevel.default

/-- The fields of one raw stats record read by `PluginModel.update_views`:
the two per-second rate fields may be absent (first tick for an interface),
and `speed` may be absent on non-local records. -/
structure NetViewRecord where
  interface_name : PyStr
  bytes_recv_rate_per_sec : Option ℚ
  bytes_sent_rate_per_sec : Option ℚ
  speed : Option ℚ
deriving DecidableEq

/-- The alert portion of `PluginModel.update_views` (lines 202-225) for one
record: skip records missing a rate field; convert rates to bits/sec with
`int(rate * 8)`; classify under the key `interface_name.split(':')[0]`
plus `_rx`/`_tx`; when that yields DEFAULT and a nonzero `speed` field is
present, re-classify with `speed` as the maximum. Returns the
`(rx, tx)` decorations, or `none` when the record was skipped. -/
def view_alert_rx_tx (ts : PyStr → Option (ℚ × ℚ × ℚ)) (fr : ℚ × ℚ × ℚ)
    (i : NetViewRecord) : Option (AlertLevel × AlertLevel) :=
  match i.bytes_recv_rate_per_sec, i.bytes_sent_rate_per_sec with
  | some r_rx, some r_tx =>
    let bps_rx : ℚ := (pyInt (r_rx * 8) : ℤ)
    let bps_tx : ℚ := (pyInt (r_tx * 8) : ℤ)
    let if_real_name := (pySplit ':' i.interface_name).getD 0 []
    let alert_rx0 := get_alert ts fr bps_rx none (if_real_name ++ strL "_rx")
    let alert_tx0 := get_alert ts fr bps_tx none (if_real_name ++ strL "_tx")
    let alert_rx :=
      match i.speed with
      | some m =>
        if alert_rx0 = AlertLevel.default ∧ m ≠ 0 then
          get_alert ts fr bps_rx (some m) (strL "rx")
        else alert_rx0
      | none => alert_rx0
    let alert_tx :=
      match i.speed with
      | some m =>
        if alert_tx0 = AlertLevel.default ∧ m ≠ 0 then
          get_alert ts fr bps_tx (some m) (strL "tx")
        else alert_tx0
      | none => alert_tx0
    some (alert_rx, alert_tx)
  | _, _ => none

/-- One interface sample held in the previous-tick cache. -/
structure InterfaceSample where
  bytes_recv : ℕ
  bytes_sent : ℕ
  bytes_all : ℕ
  timestamp : ℚ
deriving DecidableEq

/-- Per-second byte rates derived from two consecutive samples. -/
structure RateSample where
  recvRatePerSec : ℚ
  sentRatePerSec : ℚ
  allRatePerSec : ℚ
deriving DecidableEq

/-- The previous-sample cache, keyed by interface name. -/
abbrev RateCache := List (PyStr × InterfaceSample)

/-- Lookup in the rate cache. -/
def cacheGet (d : RateCache) (k : PyStr) : Option InterfaceSample :=
  match d with
  | [] => none
  | (k', v) :: rest => if k' = k then some v else cacheGet rest k

/-- Store in the rate cache, shadowing any earlier entry for the key. -/
def cacheSet (d : RateCache) (k : PyStr) (v : InterfaceSample) : RateCache :=
  (k, v) :: d.filter fun p => p.1 ≠ k

/-- Modelled from the spec: the rate computation of the
`GlancesPluginModel._manage_rate` decorator (base-class code, not part of
this repository's sources), spec section 4.3. First observation of a name
stores the sample and yields no rate; non-positive elapsed time yields no
rate; a decreased counter rebaselines and yields no rate; otherwise the
rates are the counter deltas divided by elapsed time. -/
def rateTrackerUpdate (cache : RateCache) (name : PyStr) (s : InterfaceSample) :
    RateCache × Option RateSample :=
  match cacheGet cache name with
  | none => (cacheSet cache name s, none)
  | some prev =>
    let elapsed := s.timestamp - prev.timestamp
    if elapsed ≤ 0 then (cache, none)
    else if s.bytes_recv < prev.bytes_recv ∨ s.bytes_sent < prev.bytes_sent
        ∨ s.bytes_all < prev.bytes_all then
      (cacheSet cache name s, none)
    else
      (cacheSet cache name s,
       some { recvRatePerSec := ((s.bytes_recv : ℚ) - prev.bytes_recv) / elapsed
            , sentRatePerSec := ((s.bytes_sent : ℚ) - prev.bytes_sent) / elapsed
            , allRatePerSec := ((s.bytes_all : ℚ) - prev.bytes_all) / elapsed })

/-- Per-interface counters from `psutil.net_io_counters(pernic=True)`. -/
structure IOCounters where
  bytes_sent : ℕ
  bytes_recv : ℕ
deriving DecidableEq

/-- Per-interface metadata from `psutil.net_if_stats()`: up/down flag and
advertised link speed in Mbit/s (0 when unknown). -/
structure NicStats where
  isup : Bool
  speed : ℕ
deriving DecidableEq

/-- Address families distinguished by the plugin (`psutil.AF_LINK` vs the
rest). -/
inductive AddrFamily where
  | af_link
  | af_inet
  | af_other
deriving DecidableEq

/-- One entry of `psutil.net_if_addrs()[name]`. -/
structure NetAddr where
  family : AddrFamily
  address : PyStr
deriving DecidableEq

/-- The three results fetched from psutil inside the `try` block of
`PluginModel.update_local` (lines 152-155). -/
structure PsutilData where
  net_io_counters : List (PyStr × IOCounters)
  net_status : List (PyStr × NicStats)
  net_addrs : List (PyStr × List NetAddr)

/-- Lookup in an association list with `PyStr` keys. -/
def alistGet {α : Type} (d : List (PyStr × α)) (k : PyStr) : Option α :=
  match d with
  | [] => none
  | (k', v) :: rest => if k' = k then some v else alistGet rest k

/-- The environment of one `update_local` call: display filter and alias
configuration, the netifaces-derived MAC map, the vendor table loaded at the
start of this tick, and the lazily-cached vendor table. -/
structure UpdateEnv where
  is_display : PyStr → Bool
  alias_name : PyStr → Option PyStr
  mac_addresses : List (PyStr × PyStr)
  vendor_db_tick : List (PyStr × PyStr)
  cached_db : List (PyStr × PyStr)

/-- One record emitted by `PluginModel.update_local`. -/
structure NetRecord where
  interface_name : PyStr
  alias_name : Option PyStr
  bytes_recv : ℕ
  bytes_sent : ℕ
  bytes_all : ℕ
  is_up : Bool
  speed : ℕ
  mac_address : PyStr
  vendor : PyStr
deriving DecidableEq

/-- `next((addr.address for addr in mac_info if addr.family == psutil.AF_LINK), "N/A")`
(line 187). -/
def firstLinkAddr (addrs : List NetAddr) : PyStr :=
  match addrs.find? (fun a => decide (a.family = AddrFamily.af_link)) with
  | some a => a.address
  | none => strL "N/A"

/-- The loop body of `PluginModel.update_local` (lines 164-191) for one
entry of `net_io_counters`, with the bare names of lines 162 and 189
resolved to the like-named functions of the plugin: skip undisplayed or
status-less interfaces; build the record; assign `vendor` first from the
netifaces MAC map against the per-tick table (or `"Unknown"`), convert
`speed` from Mbit/s via `* 1048576`, then overwrite `mac_address` and
`vendor` from the psutil address list against the cached table. -/
def buildRecord (env : UpdateEnv) (d : PsutilData) (p : PyStr × IOCounters) :
    Option NetRecord :=
  match alistGet d.net_status p.1 with
  | none => none
  | some st =>
    if ¬ env.is_display p.1 then none
    else
      let vendor1 :=
        match dictGet env.mac_addresses p.1 with
        | some m => get_vendor m env.vendor_db_tick
        | none => strL "Unknown"
      let stat0 : NetRecord :=
        { interface_name := p.1
        , alias_name := env.alias_name p.1
        , bytes_recv := p.2.bytes_recv
        , bytes_sent := p.2.bytes_sent
        , bytes_all := p.2.bytes_sent + p.2.bytes_recv
        , is_up := st.isup
        , speed := st.speed * 1048576
        , mac_address := []
        , vendor := vendor1 }
      let mac_address := firstLinkAddr ((alistGet d.net_addrs p.1).getD [])
      some { stat0 with
               mac_address := mac_address
             , vendor := get_vendor mac_address env.cached_db }

/-- `PluginModel.update_local` (lines 135-193): when the psutil fetch raises
an `OSError` the previously stored stats are returned unchanged; otherwise
one record per displayable interface with status, in counter order. -/
def update_local (env : UpdateEnv) (prevStats : List NetRecord)
    (fetch : Except Unit PsutilData) : List NetRecord :=
  match fetch with
  | Except.error _ => prevStats
  | Except.ok d => d.net_io_counters.filterMap (buildRecord env d)

/-!
## Specification-side definitions

These definitions follow the words of the specification / claims and are
compared against the source embeddings above.
-/

/-- A hexadecimal character, as the spec's "6 hex characters" reads. -/
def isHexChar (c : Char) : Prop :=
  c ∈ strL "0123456789abcdefABCDEF"

instance (c : Char) : Decidable (isHexChar c) := by
  unfold isHexChar
  infer_instance

/-- The normalization algorithm as the claim states it for delimited input:
split on the delimiter, left-pad each group to 2 hex characters, concatenate
all the groups, upper-case, and take the first 6 characters. -/
def specDelimKey (mac : PyStr) : PyStr :=
  (pyUpper (concatAll
    ((pySplit ':' (replaceChar '.' ':' (replaceChar '-' ':' mac))).map (zfill 2)))).take 6

/-- The hex digit characters, in the requested letter case. -/
def hexDigit (lower : Bool) (n : ℕ) : Char :=
  (if lower then strL "0123456789abcdef" else strL "0123456789ABCDEF").getD n '!'

/-- One byte group of a rendered MAC address: its high and low hex-digit
values, whether it is written with 1 hex digit (legal only when the high
digit is zero) and whether it is written in lower case. -/
structure MacGroup where
  hi : ℕ
  lo : ℕ
  short : Bool
  lower : Bool
deriving DecidableEq

/-- A well-formed byte group: digit values below 16, and the 1-digit form
only for bytes below 0x10. -/
def okGroup (g : MacGroup) : Prop :=
  g.hi < 16 ∧ g.lo < 16 ∧ (g.short = true → g.hi = 0)

instance (g : MacGroup) : Decidable (okGroup g) := by
  unfold okGroup
  infer_instance

/-- The textual rendering of one byte group. -/
def renderGroup (g : MacGroup) : PyStr :=
  if g.short then [hexDigit g.lower g.lo]
  else [hexDigit g.lower g.hi, hexDigit g.lower g.lo]

/-- The 2-digit rendering of one byte group (used by the non-delimited MAC
form, which admits no 1-digit groups). -/
def renderPlainGroup (g : MacGroup) : PyStr :=
  [hexDigit g.lower g.hi, hexDigit g.lower g.lo]

/-- The canonical upper-case 2-digit rendering of one byte group. -/
def canonGroup (g : MacGroup) : PyStr :=
  [hexDigit false g.hi, hexDigit false g.lo]

/-- The 6-upper-case-hex-character lookup key a MAC should map to: the
canonical rendering of its first three bytes. -/
def macKey (bs : List MacGroup) : PyStr :=
  concatAll ((bs.take 3).map canonGroup)

/-- A MAC address rendered with delimiter `d` between its byte groups. -/
def macDelimited (d : Char) (bs : List MacGroup) : PyStr :=
  joinWith d (bs.map renderGroup)

/-- A MAC address rendered without delimiters (2-digit groups). -/
def macPlain (bs : List MacGroup) : PyStr :=
  concatAll (bs.map renderPlainGroup)

/-!
## Concrete inputs used by witnesses and counterexamples
-/

/-- The groups of the MAC address `E0:43:DB:12:34:56`. -/
def bsC : List MacGroup :=
  [⟨14, 0, false, false⟩, ⟨4, 3, false, false⟩, ⟨13, 11, false, false⟩,
   ⟨1, 2, false, false⟩, ⟨3, 4, false, false⟩, ⟨5, 6, false, false⟩]

/-- The groups of the short-form MAC address `0:3:47:0:0:0`. -/
def bsShortC : List MacGroup :=
  [⟨0, 0, true, false⟩, ⟨0, 3, true, false⟩, ⟨4, 7, false, true⟩,
   ⟨0, 0, true, false⟩, ⟨0, 0, true, false⟩, ⟨0, 0, true, false⟩]

/-- A threshold set configured for the full interface name `eth0:1`. -/
def tsColonC : PyStr → Option (ℚ × ℚ × ℚ) :=
  fun k => if k = strL "eth0:1_rx" then some (100, 200, 300) else none

/-- A threshold set configured for interface `eth0`, both directions. -/
def tsEthC : PyStr → Option (ℚ × ℚ × ℚ) :=
  fun k =>
    if k = strL "eth0_rx" then some (100, 200, 300)
    else if k = strL "eth0_tx" then some (100, 200, 300)
    else none

/-- The default percentage fractions of the maximum (50% / 70% / 90%). -/
def frC : ℚ × ℚ × ℚ := (1/2, 7/10, 9/10)

/-- A record of the aliased interface `eth0:1` with rates and zero speed. -/
def recColonC : NetViewRecord :=
  { interface_name := strL "eth0:1"
  , bytes_recv_rate_per_sec := some 100
  , bytes_sent_rate_per_sec := some 100
  , speed := some 0 }

/-- A record of interface `eth0` with rates and zero speed. -/
def recEthC : NetViewRecord :=
  { interface_name := strL "eth0"
  , bytes_recv_rate_per_sec := some 50
  , bytes_sent_rate_per_sec := some 0
  , speed := some 0 }

/-- A record of interface `eth0` with no rate fields yet. -/
def recNoRateC : NetViewRecord :=
  { interface_name := strL "eth0"
  , bytes_recv_rate_per_sec := none
  , bytes_sent_rate_per_sec := some 3
  , speed := some 0 }

/-- A first sample of an interface. -/
def sampleC : InterfaceSample :=
  { bytes_recv := 1000, bytes_sent := 500, bytes_all := 1500, timestamp := 0 }

/-- A concrete `update_local` environment. -/
def envC : UpdateEnv :=
  { is_display := fun _ => true
  , alias_name := fun _ => none
  , mac_addresses := [(strL "eth0", strL "aa:bb:cc:dd:ee:ff")]
  , vendor_db_tick := []
  , cached_db := [(strL "E043DB", strL "Shenzhen ViewAt Technology Co.,Ltd.")] }

/-- A concrete psutil snapshot with one interface. -/
def dataC : PsutilData :=
  { net_io_counters := [(strL "eth0", { bytes_sent := 10, bytes_recv := 20 })]
  , net_status := [(strL "eth0", { isup := true, speed := 100 })]
  , net_addrs :=
      [(strL "eth0",
        [ { family := AddrFamily.af_inet, address := strL "10.0.0.1" }
        , { family := AddrFamily.af_link, address := strL "E0:43:DB:12:34:56" } ])] }

/-- The record `update_local` emits for `dataC` under `envC`. -/
def recOutC : NetRecord :=
  { interface_name := strL "eth0"
  , alias_name := none
  , bytes_recv := 20
  , bytes_sent := 10
  , bytes_all := 30
  , is_up := true
  , speed := 104857600
  , mac_address := strL "E0:43:DB:12:34:56"
  , vendor := strL "Shenzhen ViewAt Technology Co.,Ltd." }

/-!
## Helper lemmas
-/

theorem dictGet_dictSet_self (d : List (PyStr × PyStr)) (k v : PyStr) :
    dictGet (dictSet d k v) k = some v := by
  simp [dictGet, dictSet]

theorem dictGet_dictRemove_ne (d : List (PyStr × PyStr)) (k k' : PyStr) (h : k' ≠ k) :
    dictGet (dictRemove d k) k' = dictGet d k' := by
  induction d with
  | nil => rfl
  | cons a rest ih =>
    obtain ⟨a1, a2⟩ := a
    by_cases ha : a1 = k
    · have ha' : ¬ a1 = k' := by rw [ha]; exact fun hc => h hc.symm
      simp only [dictRemove, if_pos ha, dictGet, if_neg ha', ih]
    · simp only [dictRemove, if_neg ha, dictGet, ih]

theorem dictGet_dictSet_ne (d : List (PyStr × PyStr)) (k v k' : PyStr) (h : k' ≠ k) :
    dictGet (dictSet d k v) k' = dictGet d k' := by
  simp only [dictSet, dictGet]
  rw [if_neg (fun h' => h h'.symm)]
  exact dictGet_dictRemove_ne d k k' h

theorem pyUpper_append (l1 l2 : PyStr) :
    pyUpper (l1 ++ l2) = pyUpper l1 ++ pyUpper l2 :=
  List.map_append Char.toUpper l1 l2

theorem pyUpper_concatAll (L : List PyStr) :
    pyUpper (concatAll L) = concatAll (L.map pyUpper) := by
  induction L with
  | nil => rfl
  | cons g gs ih =>
    show pyUpper (g ++ concatAll gs) = concatAll (pyUpper g :: gs.map pyUpper)
    rw [pyUpper_append, ih]
    rfl

theorem mem_concatAll {c : Char} {L : List PyStr} :
    c ∈ concatAll L ↔ ∃ l ∈ L, c ∈ l := by
  induction L with
  | nil => simp [concatAll]
  | cons g gs ih => simp [concatAll, ih]

theorem take_six_concatAll (L : List PyStr) (h3 : 3 ≤ L.length)
    (hlen : ∀ g ∈ L.take 3, g.length = 2) :
    (concatAll L).take 6 = concatAll (L.take 3) := by
  match L with
  | [] => simp at h3
  | [a] => simp at h3
  | [a, b] => simp at h3
  | a :: b :: c :: t =>
    have ha : a.length = 2 := hlen a (by simp)
    have hb : b.length = 2 := hlen b (by simp)
    have hc : c.length = 2 := hlen c (by simp)
    obtain ⟨a1, a2, rfl⟩ := List.length_eq_two.mp ha
    obtain ⟨b1, b2, rfl⟩ := List.length_eq_two.mp hb
    obtain ⟨c1, c2, rfl⟩ := List.length_eq_two.mp hc
    rfl

theorem zfill_length_of_le (s : PyStr) (h : s.length ≤ 2) :
    (zfill 2 s).length = 2 := by
  match s with
  | [] => rfl
  | c :: rest =>
    simp only [zfill]
    split
    · simp only [List.length_cons, List.length_append, List.length_replicate]
      simp only [List.length_cons] at h
      omega
    · simp only [List.length_append, List.length_replicate, List.length_cons]
      simp only [List.length_cons] at h
      omega

theorem pySplit_cons (c x : Char) (xs : PyStr) :
    pySplit c (x :: xs)
      = if x = c then [] :: pySplit c xs
        else (x :: (pySplit c xs).headI) :: (pySplit c xs).tail := rfl

theorem pySplit_of_not_mem (c : Char) (l : PyStr) (h : c ∉ l) : pySplit c l = [l] := by
  induction l with
  | nil => rfl
  | cons x xs ih =>
    have hx : ¬ x = c := fun hc => h (hc ▸ List.mem_cons_self x xs)
    have hxs : c ∉ xs := fun hc => h (List.mem_cons_of_mem x hc)
    rw [pySplit_cons, if_neg hx, ih hxs]
    rfl

theorem pySplit_glue (c : Char) (g t : PyStr) (h : c ∉ g) :
    pySplit c (g ++ c :: t) = g :: pySplit c t := by
  induction g with
  | nil =>
    rw [List.nil_append, pySplit_cons, if_pos rfl]
  | cons x g' ih =>
    have hx : ¬ x = c := fun hc => h (hc ▸ List.mem_cons_self x g')
    have hg' : c ∉ g' := fun hc => h (List.mem_cons_of_mem x hc)
    rw [List.cons_append, pySplit_cons, if_neg hx, ih hg']
    rfl

theorem pySplit_joinWith (c : Char) (gs : List PyStr) (hne : gs ≠ [])
    (h : ∀ g ∈ gs, c ∉ g) : pySplit c (joinWith c gs) = gs := by
  induction gs with
  | nil => exact absurd rfl hne
  | cons g rest ih =>
    match rest with
    | [] => exact pySplit_of_not_mem c g (h g (List.mem_cons_self g []))
    | g' :: t =>
      have hstep : joinWith c (g :: g' :: t) = g ++ c :: joinWith c (g' :: t) := rfl
      rw [hstep, pySplit_glue c g _ (h g (List.mem_cons_self g _))]
      rw [ih (List.cons_ne_nil g' t) (fun x hx => h x (List.mem_cons_of_mem g hx))]

theorem mem_joinWith_self (c : Char) (gs : List PyStr) (h2 : 2 ≤ gs.length) :
    c ∈ joinWith c gs := by
  match gs with
  | [] => simp at h2
  | [g] => simp at h2
  | g :: g' :: t =>
    have hstep : joinWith c (g :: g' :: t) = g ++ c :: joinWith c (g' :: t) := rfl
    rw [hstep]
    exact List.mem_append_right g (List.mem_cons_self c _)

theorem map_eq_self_of_mem {α : Type} (f : α → α) (l : List α)
    (h : ∀ x ∈ l, f x = x) : l.map f = l := by
  induction l with
  | nil => rfl
  | cons x xs ih =>
    simp only [List.map_cons, h x (List.mem_cons_self x xs),
      ih (fun y hy => h y (List.mem_cons_of_mem x hy))]

theorem replaceChar_of_not_mem (a b : Char) (l : PyStr) (h : a ∉ l) :
    replaceChar a b l = l := by
  refine map_eq_self_of_mem _ l fun x hx => ?_
  have : ¬ x = a := fun hc => h (hc ▸ hx)
  simp [this]

theorem replaceChar_append (a b : Char) (l1 l2 : PyStr) :
    replaceChar a b (l1 ++ l2) = replaceChar a b l1 ++ replaceChar a b l2 :=
  List.map_append _ l1 l2

theorem replaceChar_joinWith (a b d : Char) (gs : List PyStr) :
    replaceChar a b (joinWith d gs)
      = joinWith (if d = a then b else d) (gs.map (replaceChar a b)) := by
  induction gs with
  | nil => rfl
  | cons g rest ih =>
    match rest with
    | [] => rfl
    | g' :: t =>
      calc replaceChar a b (joinWith d (g :: g' :: t))
          = replaceChar a b (g ++ d :: joinWith d (g' :: t)) := rfl
        _ = replaceChar a b g ++ replaceChar a b (d :: joinWith d (g' :: t)) :=
            replaceChar_append a b _ _
        _ = replaceChar a b g
              ++ (if d = a then b else d) :: replaceChar a b (joinWith d (g' :: t)) := rfl
        _ = replaceChar a b g
              ++ (if d = a then b else d)
                :: joinWith (if d = a then b else d) ((g' :: t).map (replaceChar a b)) := by
            rw [ih]
        _ = joinWith (if d = a then b else d) ((g :: g' :: t).map (replaceChar a b)) := by
            rw [List.map_cons, List.map_cons]
            rfl

theorem hexDigit_ne_special : ∀ n < 16, ∀ lower : Bool,
    hexDigit lower n ≠ ':' ∧ hexDigit lower n ≠ '-'
      ∧ hexDigit lower n ≠ '.' ∧ hexDigit lower n ≠ '+' := by
  decide

theorem hexDigit_toUpper : ∀ n < 16, ∀ lower : Bool,
    Char.toUpper (hexDigit lower n) = hexDigit false n := by
  decide

theorem hexDigit_zero : ∀ lower : Bool, hexDigit lower 0 = '0' := by
  decide

theorem renderGroup_upper_zfill (g : MacGroup) (h : okGroup g) :
    pyUpper (zfill 2 (renderGroup g)) = canonGroup g := by
  obtain ⟨hhi, hlo, hshort⟩ := h
  have hlo' := hexDigit_ne_special g.lo hlo g.lower
  have hhi' := hexDigit_ne_special g.hi hhi g.lower
  cases hs : g.short with
  | true =>
    have h0 : g.hi = 0 := hshort hs
    have hsign : ¬ (hexDigit g.lower g.lo = '+' ∨ hexDigit g.lower g.lo = '-') :=
      fun hc => hc.elim hlo'.2.2.2 hlo'.2.1
    have hr : renderGroup g = [hexDigit g.lower g.lo] := by
      simp [renderGroup, hs]
    have hz : zfill 2 [hexDigit g.lower g.lo] = ['0', hexDigit g.lower g.lo] := by
      simp only [zfill, if_neg hsign]
      rfl
    rw [hr, hz]
    simp only [pyUpper, List.map_cons, List.map_nil,
      hexDigit_toUpper g.lo hlo g.lower]
    rw [show Char.toUpper '0' = '0' from rfl]
    simp [canonGroup, h0, hexDigit_zero]
  | false =>
    have hsign : ¬ (hexDigit g.lower g.hi = '+' ∨ hexDigit g.lower g.hi = '-') :=
      fun hc => hc.elim hhi'.2.2.2 hhi'.2.1
    have hr : renderGroup g = [hexDigit g.lower g.hi, hexDigit g.lower g.lo] := by
      simp [renderGroup, hs]
    have hz : zfill 2 [hexDigit g.lower g.hi, hexDigit g.lower g.lo]
        = [hexDigit g.lower g.hi, hexDigit g.lower g.lo] := by
      simp only [zfill, if_neg hsign]
      rfl
    rw [hr, hz]
    simp only [pyUpper, List.map_cons, List.map_nil,
      hexDigit_toUpper g.lo hlo g.lower, hexDigit_toUpper g.hi hhi g.lower]
    simp [canonGroup]

theorem renderGroup_no_delim (g : MacGroup) (h : okGroup g) :
    ':' ∉ renderGroup g ∧ '-' ∉ renderGroup g ∧ '.' ∉ renderGroup g := by
  obtain ⟨hhi, hlo, _⟩ := h
  have hlo' := hexDigit_ne_special g.lo hlo g.lower
  have hhi' := hexDigit_ne_special g.hi hhi g.lower
  cases hs : g.short with
  | true =>
    have hr : renderGroup g = [hexDigit g.lower g.lo] := by
      simp [renderGroup, hs]
    rw [hr]
    refine ⟨?_, ?_, ?_⟩ <;> intro hc <;> rw [List.mem_singleton] at hc
    · exact hlo'.1 hc.symm
    · exact hlo'.2.1 hc.symm
    · exact hlo'.2.2.1 hc.symm
  | false =>
    have hr : renderGroup g = [hexDigit g.lower g.hi, hexDigit g.lower g.lo] := by
      simp [renderGroup, hs]
    rw [hr]
    refine ⟨?_, ?_, ?_⟩ <;> intro hc <;>
      rw [List.mem_cons, List.mem_singleton] at hc <;> rcases hc with hc | hc
    · exact hhi'.1 hc.symm
    · exact hlo'.1 hc.symm
    · exact hhi'.2.1 hc.symm
    · exact hlo'.2.1 hc.symm
    · exact hhi'.2.2.1 hc.symm
    · exact hlo'.2.2.1 hc.symm

theorem renderPlainGroup_upper (g : MacGroup) (h : okGroup g) :
    pyUpper (renderPlainGroup g) = canonGroup g := by
  obtain ⟨hhi, hlo, _⟩ := h
  simp only [renderPlainGroup, pyUpper, List.map_cons, List.map_nil, canonGroup,
    hexDigit_toUpper g.lo hlo g.lower, hexDigit_toUpper g.hi hhi g.lower]

theorem renderPlainGroup_no_delim (g : MacGroup) (h : okGroup g) :
    ':' ∉ renderPlainGroup g ∧ '-' ∉ renderPlainGroup g ∧ '.' ∉ renderPlainGroup g := by
  obtain ⟨hhi, hlo, _⟩ := h
  have hlo' := hexDigit_ne_special g.lo hlo g.lower
  have hhi' := hexDigit_ne_special g.hi hhi g.lower
  refine ⟨?_, ?_, ?_⟩ <;> intro hc <;>
    rw [renderPlainGroup, List.mem_cons, List.mem_singleton] at hc <;>
    rcases hc with hc | hc
  · exact hhi'.1 hc.symm
  · exact hlo'.1 hc.symm
  · exact hhi'.2.1 hc.symm
  · exact hlo'.2.1 hc.symm
  · exact hhi'.2.2.1 hc.symm
  · exact hlo'.2.2.1 hc.symm

theorem macLookupKey_joinWith (d : Char) (hd : d = ':' ∨ d = '-' ∨ d = '.')
    (gs : List PyStr) (h2 : 2 ≤ gs.length)
    (hg : ∀ g ∈ gs, ':' ∉ g ∧ '-' ∉ g ∧ '.' ∉ g) :
    macLookupKey (joinWith d gs) = pyUpper (concatAll ((gs.map (zfill 2)).take 3)) := by
  have hne : gs ≠ [] := by
    intro hc
    rw [hc] at h2
    simp at h2
  have hcond : ':' ∈ joinWith d gs ∨ '-' ∈ joinWith d gs ∨ '.' ∈ joinWith d gs := by
    rcases hd with rfl | rfl | rfl
    · exact Or.inl (mem_joinWith_self _ _ h2)
    · exact Or.inr (Or.inl (mem_joinWith_self _ _ h2))
    · exact Or.inr (Or.inr (mem_joinWith_self _ _ h2))
  have e1 : replaceChar '-' ':' (joinWith d gs) = joinWith (if d = '-' then ':' else d) gs := by
    rw [replaceChar_joinWith]
    congr 1
    exact map_eq_self_of_mem _ gs fun g hgm => replaceChar_of_not_mem _ _ g (hg g hgm).2.1
  have e2 : replaceChar '.' ':' (joinWith (if d = '-' then ':' else d) gs)
      = joinWith ':' gs := by
    rw [replaceChar_joinWith]
    have hd2 : (if ((if d = '-' then ':' else d) : Char) = '.' then ':'
        else if d = '-' then ':' else d) = ':' := by
      rcases hd with rfl | rfl | rfl <;> rfl
    rw [hd2]
    congr 1
    exact map_eq_self_of_mem _ gs fun g hgm => replaceChar_of_not_mem _ _ g (hg g hgm).2.2
  simp only [macLookupKey, if_pos hcond]
  rw [e1, e2, pySplit_joinWith ':' gs hne fun g hgm => (hg g hgm).1]

theorem macLookupKey_no_delim (s : PyStr) (h : ':' ∉ s ∧ '-' ∉ s ∧ '.' ∉ s) :
    macLookupKey s = (pyUpper s).take 6 := by
  have hcond : ¬ (':' ∈ s ∨ '-' ∈ s ∨ '.' ∈ s) := by
    rintro (hc | hc | hc)
    · exact h.1 hc
    · exact h.2.1 hc
    · exact h.2.2 hc
  simp only [macLookupKey, if_neg hcond]

/-!
## Claim theorems
-/

/-- Claim C7: on a Counter Source failure (an OS error while fetching
network counters, status or addresses), `update_local` returns the
previously stored stats unchanged, so the previous tick's records are
re-emitted. -/
theorem claim_C7 (env : UpdateEnv) (prev : List NetRecord) (e : Unit) :
    update_local env prev (Except.error e) = prev := rfl

/-- Claim C8: when the OUI file is missing or unreadable,
`load_vendor_database` returns the empty table rather than an error, and
every subsequent lookup through `get_vendor` returns `"Unknown Vendor"`. -/
theorem claim_C8 :
    load_vendor_database none = []
    ∧ ∀ mac : PyStr, get_vendor mac (load_vendor_database none) = unknownVendor :=
  ⟨rfl, fun _ => rfl⟩

/-- Counterexample to claim C2 as stated: the loader can store an empty
vendor name (a line whose second tab-field is empty); for the resulting
table, `get_vendor` does not return the stored vendor name of the matching
prefix but the sentinel, because the Python code tests the looked-up value
for truthiness. -/
theorem claim_C2_counterexample :
    dictGet (load_vendor_database (some [strL "E043DB\t\tX"])) (strL "E043DB")
        = some (strL "")
    ∧ get_vendor (strL "E0:43:DB:12:34:56")
        (load_vendor_database (some [strL "E043DB\t\tX"])) = unknownVendor
    ∧ unknownVendor ≠ strL "" := by
  decide

/-- Claim C2 (amended): for every vendor table and MAC string, if the
normalized key is bound to a non-empty vendor name then `get_vendor`
returns exactly that name; if it is bound to the empty string, or unbound
(including non-MAC inputs), `get_vendor` returns `"Unknown Vendor"` (and,
being a total function, never raises). -/
theorem claim_C2 : ∀ (db : List (PyStr × PyStr)) (mac : PyStr),
    (∀ v : PyStr, dictGet db (macLookupKey mac) = some v → v ≠ [] →
      get_vendor mac db = v)
    ∧ (dictGet db (macLookupKey mac) = some [] → get_vendor mac db = unknownVendor)
    ∧ (dictGet db (macLookupKey mac) = none → get_vendor mac db = unknownVendor) := by
  intro db mac
  refine ⟨?_, ?_, ?_⟩
  · intro v hv hne
    simp [get_vendor, hv, hne]
  · intro hv
    simp [get_vendor, hv]
  · intro hv
    simp [get_vendor, hv]

/-- Witness for claim C2 at a concrete table and MAC. -/
theorem claim_C2_witness :
    get_vendor (strL "E0:43:DB:12:34:56") [(strL "E043DB", strL "Shenzhen")]
      = strL "Shenzhen" :=
  (claim_C2 [(strL "E043DB", strL "Shenzhen")] (strL "E0:43:DB:12:34:56")).1
    (strL "Shenzhen") (by decide) (by decide)

/-- Counterexample to claim C4 as stated: a record whose 6-character prefix
is not hexadecimal is NOT discarded; `ZZZZZZ` is stored. -/
theorem claim_C4_counterexample :
    dictGet (load_vendor_database (some [strL "ZZZZZZ\tFoo"])) (strL "ZZZZZZ")
        = some (strL "Foo")
    ∧ ¬ (∀ c ∈ strL "ZZZZZZ", isHexChar c) := by
  decide

/-- Claim C4 (amended): lines that are empty, start with `#`, or do not
split into at least two tab-separated fields are skipped; a kept record's
prefix is trimmed and upper-cased; a record whose trimmed prefix is not
exactly 6 characters (hex-ness is not validated) is discarded silently; and
a later record with the same prefix shadows the earlier one's vendor name
in the resulting table. -/
theorem claim_C4 :
    (∀ (d : List (PyStr × PyStr)) (line : PyStr),
      pyStrip line = [] ∨ (pyStrip line).head? = some '#' →
      parseVendorLine d line = d)
    ∧ (∀ (d : List (PyStr × PyStr)) (line : PyStr),
      (pySplit '\t' (pyStrip line)).length < 2 → parseVendorLine d line = d)
    ∧ (∀ (d : List (PyStr × PyStr)) (line : PyStr),
      (pyUpper (pyStrip ((pySplit '\t' (pyStrip line)).getD 0 []))).length ≠ 6 →
      parseVendorLine d line = d)
    ∧ (∀ (d : List (PyStr × PyStr)) (line : PyStr),
      ¬ (pyStrip line = [] ∨ (pyStrip line).head? = some '#') →
      2 ≤ (pySplit '\t' (pyStrip line)).length →
      (pyUpper (pyStrip ((pySplit '\t' (pyStrip line)).getD 0 []))).length = 6 →
      parseVendorLine d line
        = dictSet d (pyUpper (pyStrip ((pySplit '\t' (pyStrip line)).getD 0 [])))
            (pyStrip ((pySplit '\t' (pyStrip line)).getD 1 [])))
    ∧ (∀ (d : List (PyStr × PyStr)) (k v : PyStr), dictGet (dictSet d k v) k = some v)
    ∧ (∀ (d : List (PyStr × PyStr)) (k v k' : PyStr), k' ≠ k →
        dictGet (dictSet d k v) k' = dictGet d k') := by
  refine ⟨?_, ?_, ?_, ?_, ?_, ?_⟩
  · intro d line h
    simp only [parseVendorLine, if_pos h]
  · intro d line h
    by_cases h1 : pyStrip line = [] ∨ (pyStrip line).head? = some '#'
    · simp only [parseVendorLine, if_pos h1]
    · simp only [parseVendorLine, if_neg h1, if_neg (by omega : ¬ 2 ≤ (pySplit '\t' (pyStrip line)).length)]
  · intro d line h
    by_cases h1 : pyStrip line = [] ∨ (pyStrip line).head? = some '#'
    · simp only [parseVendorLine, if_pos h1]
    · by_cases h2 : 2 ≤ (pySplit '\t' (pyStrip line)).length
      · simp only [parseVendorLine, if_neg h1, if_pos h2, if_neg h]
      · simp only [parseVendorLine, if_neg h1, if_neg h2]
  · intro d line h1 h2 h3
    simp only [parseVendorLine, if_neg h1, if_pos h2, if_pos h3]
  · intro d k v
    exact dictGet_dictSet_self d k v
  · intro d k v k' h
    exact dictGet_dictSet_ne d k v k' h

/-- Witness for claim C4: a well-formed line is stored and retrievable. -/
theorem claim_C4_witness :
    parseVendorLine [] (strL "E043DB\tShenzhen")
      = dictSet []
          (pyUpper (pyStrip ((pySplit '\t' (pyStrip (strL "E043DB\tShenzhen"))).getD 0 [])))
          (pyStrip ((pySplit '\t' (pyStrip (strL "E043DB\tShenzhen"))).getD 1 []))
    ∧ dictGet (dictSet [] (strL "AABBCC") (strL "V1")) (strL "AABBCC") = some (strL "V1") :=
  ⟨claim_C4.2.2.2.1 [] (strL "E043DB\tShenzhen") (by decide) (by decide) (by decide),
   claim_C4.2.2.2.2.1 [] (strL "AABBCC") (strL "V1")⟩

/-- Claim C6: the first observation of an interface never yields a rate
(`rateTrackerUpdate` returns none exactly on a cache miss, and a produced
rate implies a previous sample existed), and `update_views` skips alert
classification for records whose rate fields are absent. -/
theorem claim_C6 :
    (∀ (cache : RateCache) (name : PyStr) (s : InterfaceSample),
        cacheGet cache name = none → (rateTrackerUpdate cache name s).2 = none)
    ∧ (∀ (cache : RateCache) (name : PyStr) (s : InterfaceSample) (r : RateSample),
        (rateTrackerUpdate cache name s).2 = some r →
        ∃ prev, cacheGet cache name = some prev)
    ∧ (∀ (ts : PyStr → Option (ℚ × ℚ × ℚ)) (fr : ℚ × ℚ × ℚ) (i : NetViewRecord),
        i.bytes_recv_rate_per_sec = none ∨ i.bytes_sent_rate_per_sec = none →
        view_alert_rx_tx ts fr i = none) := by
  refine ⟨?_, ?_, ?_⟩
  · intro cache name s h
    simp [rateTrackerUpdate, h]
  · intro cache name s r h
    cases hc : cacheGet cache name with
    | none => simp [rateTrackerUpdate, hc] at h
    | some prev => exact ⟨prev, rfl⟩
  · intro ts fr i h
    rcases h with h | h
    · cases h2 : i.bytes_sent_rate_per_sec <;> simp [view_alert_rx_tx, h, h2]
    · cases h2 : i.bytes_recv_rate_per_sec <;> simp [view_alert_rx_tx, h, h2]

/-- Witness for claim C6 at a concrete first sample and a concrete
rate-less record. -/
theorem claim_C6_witness :
    (rateTrackerUpdate [] (strL "eth0") sampleC).2 = none
    ∧ view_alert_rx_tx tsEthC frC recNoRateC = none :=
  ⟨claim_C6.1 [] (strL "eth0") sampleC rfl,
   claim_C6.2.2 tsEthC frC recNoRateC (Or.inl rfl)⟩

/-- Claim C9 (intent of lines 185-189, with the bare names resolved to the
plugin's functions): every emitted record's final `vendor` is `get_vendor`
of the psutil-derived MAC (or `"N/A"`) against the cached table, and the
emitted records are independent of the netifaces MAC map and the per-tick
table, whose earlier `vendor` assignment is always overwritten. -/
theorem claim_C9_intended_vendor :
    (∀ (env : UpdateEnv) (d : PsutilData) (p : PyStr × IOCounters) (r : NetRecord),
        buildRecord env d p = some r →
        r.vendor = get_vendor r.mac_address env.cached_db
          ∧ r.mac_address = firstLinkAddr ((alistGet d.net_addrs p.1).getD []))
    ∧ (∀ (env : UpdateEnv) (M V : List (PyStr × PyStr)) (prev : List NetRecord)
        (f : Except Unit PsutilData),
        update_local { env with mac_addresses := M, vendor_db_tick := V } prev f
          = update_local env prev f) := by
  refine ⟨?_, ?_⟩
  · intro env d p r h
    cases hs : alistGet d.net_status p.1 with
    | none => simp [buildRecord, hs] at h
    | some st =>
      simp only [buildRecord, hs] at h
      split at h
      · exact absurd h (by simp)
      · have hr := Option.some.inj h
        subst hr
        exact ⟨rfl, rfl⟩
  · intro env M V prev f
    cases f with
    | error e => rfl
    | ok d => rfl

/-- Witness for claim C9 at a concrete environment and snapshot. -/
theorem claim_C9_witness :
    recOutC.vendor = get_vendor recOutC.mac_address envC.cached_db
    ∧ recOutC.mac_address
        = firstLinkAddr ((alistGet dataC.net_addrs (strL "eth0")).getD []) :=
  claim_C9_intended_vendor.1 envC dataC
    (strL "eth0", { bytes_sent := 10, bytes_recv := 20 }) recOutC (by decide)

/-- Claim C10: every emitted record's `speed` is the advertised link speed
(in Mbit/s) multiplied by 1048576 = 2^20 rather than 10^6, so the
bits-per-second ceiling overstates the decimal conversion by the factor
1.048576. -/
theorem claim_C10 :
    ∀ (env : UpdateEnv) (d : PsutilData) (p : PyStr × IOCounters) (r : NetRecord),
      buildRecord env d p = some r →
      ∃ st : NicStats, alistGet d.net_status p.1 = some st
        ∧ r.speed = st.speed * 1048576
        ∧ (1048576 : ℕ) = 2 ^ 20
        ∧ ((1048576 : ℚ) = 1.048576 * 1000000) := by
  intro env d p r h
  cases hs : alistGet d.net_status p.1 with
  | none => simp [buildRecord, hs] at h
  | some st =>
    simp only [buildRecord, hs] at h
    split at h
    · exact absurd h (by simp)
    · have hr := Option.some.inj h
      subst hr
      exact ⟨st, rfl, rfl, by norm_num, by norm_num⟩

/-- Witness for claim C10 at a concrete environment and snapshot. -/
theorem claim_C10_witness :
    ∃ st : NicStats,
      alistGet dataC.net_status (strL "eth0") = some st
      ∧ recOutC.speed = st.speed * 1048576
      ∧ (1048576 : ℕ) = 2 ^ 20
      ∧ ((1048576 : ℚ) = 1.048576 * 1000000) :=
  claim_C10 envC dataC (strL "eth0", { bytes_sent := 10, bytes_recv := 20 })
    recOutC (by decide)

theorem map_take_aux {α β : Type} (f : α → β) :
    ∀ (n : ℕ) (l : List α), (l.take n).map f = (l.map f).take n := by
  intro n l
  induction l generalizing n with
  | nil => simp
  | cons x xs ih =>
    cases n with
    | zero => simp
    | succ n => simp [ih]

theorem map_congr_mem {α β : Type} (f g : α → β) (l : List α)
    (h : ∀ a ∈ l, f a = g a) : l.map f = l.map g := by
  induction l with
  | nil => rfl
  | cons x xs ih =>
    simp only [List.map_cons, h x (List.mem_cons_self x xs),
      ih fun a ha => h a (List.mem_cons_of_mem x ha)]

/-- Counterexample to claim C5 as stated: for the aliased interface
`eth0:1`, the code consults the threshold key built from the part of the
name before the colon (`eth0_rx`), not from the full interface name;
with thresholds configured only under `eth0:1_rx` the code yields DEFAULT,
while classification under the full-name key yields CRITICAL. -/
theorem claim_C5_counterexample :
    view_alert_rx_tx tsColonC frC recColonC
        = some (AlertLevel.default, AlertLevel.default)
    ∧ get_alert tsColonC frC ((pyInt ((100 : ℚ) * 8) : ℤ) : ℚ) none
        (recColonC.interface_name ++ strL "_rx") = AlertLevel.critical
    ∧ AlertLevel.default ≠ AlertLevel.critical := by
  refine ⟨?_, ?_, by decide⟩
  · simp only [view_alert_rx_tx, get_alert, classifyRate, tsColonC, frC, recColonC, pyInt]
    decide
  · have hb : ((pyInt ((100 : ℚ) * 8) : ℤ) : ℚ) = 800 := by norm_num [pyInt]
    rw [hb]
    simp only [get_alert, classifyRate, tsColonC]
    decide

/-- Claim C5 (amended): for every record with both rate fields, each rate is
converted to bits/sec as `int(rate * 8)` and first classified against the
configured threshold keyed by the portion of the interface name before the
first `:` plus the direction suffix; only when that yields DEFAULT and the
record's `speed` is nonzero is the rate re-classified with `speed` as the
maximum; otherwise the first classification (including DEFAULT) stands. -/
theorem claim_C5 :
    ∀ (ts : PyStr → Option (ℚ × ℚ × ℚ)) (fr : ℚ × ℚ × ℚ) (i : NetViewRecord)
      (r_rx r_tx : ℚ),
      i.bytes_recv_rate_per_sec = some r_rx →
      i.bytes_sent_rate_per_sec = some r_tx →
      ((∀ m : ℚ, i.speed = some m → m ≠ 0 →
        view_alert_rx_tx ts fr i = some
          ( if get_alert ts fr ((pyInt (r_rx * 8) : ℤ) : ℚ) none
                ((pySplit ':' i.interface_name).getD 0 [] ++ strL "_rx")
                = AlertLevel.default
            then get_alert ts fr ((pyInt (r_rx * 8) : ℤ) : ℚ) (some m) (strL "rx")
            else get_alert ts fr ((pyInt (r_rx * 8) : ℤ) : ℚ) none
                ((pySplit ':' i.interface_name).getD 0 [] ++ strL "_rx")
          , if get_alert ts fr ((pyInt (r_tx * 8) : ℤ) : ℚ) none
                ((pySplit ':' i.interface_name).getD 0 [] ++ strL "_tx")
                = AlertLevel.default
            then get_alert ts fr ((pyInt (r_tx * 8) : ℤ) : ℚ) (some m) (strL "tx")
            else get_alert ts fr ((pyInt (r_tx * 8) : ℤ) : ℚ) none
                ((pySplit ':' i.interface_name).getD 0 [] ++ strL "_tx") ))
      ∧ (i.speed = some 0 ∨ i.speed = none →
        view_alert_rx_tx ts fr i = some
          ( get_alert ts fr ((pyInt (r_rx * 8) : ℤ) : ℚ) none
              ((pySplit ':' i.interface_name).getD 0 [] ++ strL "_rx")
          , get_alert ts fr ((pyInt (r_tx * 8) : ℤ) : ℚ) none
              ((pySplit ':' i.interface_name).getD 0 [] ++ strL "_tx") ))) := by
  intro ts fr i r_rx r_tx h1 h2
  constructor
  · intro m hm hm0
    simp only [view_alert_rx_tx, h1, h2, hm]
    by_cases hrx : get_alert ts fr ((pyInt (r_rx * 8) : ℤ) : ℚ) none
        ((pySplit ':' i.interface_name).getD 0 [] ++ strL "_rx") = AlertLevel.default <;>
      by_cases htx : get_alert ts fr ((pyInt (r_tx * 8) : ℤ) : ℚ) none
          ((pySplit ':' i.interface_name).getD 0 [] ++ strL "_tx") = AlertLevel.default <;>
      simp [hrx, htx, hm0]
  · intro hsp
    rcases hsp with hsp | hsp <;> simp [view_alert_rx_tx, h1, h2, hsp]

/-- Witness for claim C5 at a concrete record and threshold set. -/
theorem claim_C5_witness :
    view_alert_rx_tx tsEthC frC recEthC = some (AlertLevel.critical, AlertLevel.ok) := by
  have h := (claim_C5 tsEthC frC recEthC 50 0 rfl rfl).2 (Or.inl rfl)
  rw [h]
  have hsplit : (pySplit ':' recEthC.interface_name).getD 0 [] = strL "eth0" := by decide
  have hb1 : ((pyInt ((50 : ℚ) * 8) : ℤ) : ℚ) = 400 := by norm_num [pyInt]
  have hb2 : ((pyInt ((0 : ℚ) * 8) : ℤ) : ℚ) = 0 := by norm_num [pyInt]
  have hkrx : strL "eth0" ++ strL "_rx" = strL "eth0_rx" := by decide
  have hktx : strL "eth0" ++ strL "_tx" = strL "eth0_tx" := by decide
  rw [hsplit, hb1, hb2, hkrx, hktx]
  have l1 : tsEthC (strL "eth0_rx") = some (100, 200, 300) := by
    show (if strL "eth0_rx" = strL "eth0_rx" then some ((100 : ℚ), (200 : ℚ), (300 : ℚ))
      else if strL "eth0_rx" = strL "eth0_tx" then some (100, 200, 300) else none)
        = some (100, 200, 300)
    rw [if_pos rfl]
  have l2 : tsEthC (strL "eth0_tx") = some (100, 200, 300) := by
    show (if strL "eth0_tx" = strL "eth0_rx" then some ((100 : ℚ), (200 : ℚ), (300 : ℚ))
      else if strL "eth0_tx" = strL "eth0_tx" then some (100, 200, 300) else none)
        = some (100, 200, 300)
    rw [if_neg (by decide), if_pos rfl]
  simp only [get_alert, l1, l2, classifyRate]
  norm_num

/-- Counterexample to claim C3 as stated: for a delimited input whose first
group is longer than 2 characters, the code's key (the join of the first
three padded groups) differs from the first 6 characters of the full padded
concatenation. -/
theorem claim_C3_counterexample :
    (':' ∈ strL "ABCDE:12:34")
    ∧ macLookupKey (strL "ABCDE:12:34") ≠ specDelimKey (strL "ABCDE:12:34") := by
  decide

/-- Claim C3 (amended): for every input containing a delimiter whose split
yields at least 3 groups, each of the first three at most 2 characters
long, the code's key (the upper-cased join of the first three zero-padded
groups) equals the first 6 characters of the upper-cased full padded
concatenation, as the claim states. -/
theorem claim_C3 :
    ∀ mac : PyStr, (':' ∈ mac ∨ '-' ∈ mac ∨ '.' ∈ mac) →
      3 ≤ (pySplit ':' (replaceChar '.' ':' (replaceChar '-' ':' mac))).length →
      (∀ g ∈ (pySplit ':' (replaceChar '.' ':' (replaceChar '-' ':' mac))).take 3,
        g.length ≤ 2) →
      macLookupKey mac = specDelimKey mac := by
  intro mac hdelim h3 hlen
  simp only [macLookupKey, if_pos hdelim, specDelimKey]
  rw [pyUpper_concatAll, pyUpper_concatAll]
  rw [take_six_concatAll]
  · rw [map_take_aux]
  · simpa using h3
  · intro g hg
    rw [← map_take_aux, ← map_take_aux] at hg
    obtain ⟨g1, hg1, rfl⟩ := List.mem_map.mp hg
    obtain ⟨g0, hg0, rfl⟩ := List.mem_map.mp hg1
    have : (zfill 2 g0).length = 2 := zfill_length_of_le g0 (hlen g0 hg0)
    simp [pyUpper, this]

/-- Witness for claim C3 at the canonical delimited MAC. -/
theorem claim_C3_witness :
    macLookupKey (strL "E0:43:DB:12:34:56") = specDelimKey (strL "E0:43:DB:12:34:56") :=
  claim_C3 (strL "E0:43:DB:12:34:56") (by decide) (by decide) (by decide)

/-- Claim C1: for every 6-byte MAC address, the colon-, hyphen- and
dot-delimited renderings, with each byte group written with 1 or 2 hex
digits and in either letter case, and the non-delimited 2-digit rendering
in either letter case, all normalize to the same key: the upper-case
2-digit hex rendering of the first three bytes. -/
theorem claim_C1 (d : Char) (hd : d = ':' ∨ d = '-' ∨ d = '.') (bs : List MacGroup)
    (h6 : bs.length = 6) (hok : ∀ g ∈ bs, okGroup g) :
    macLookupKey (macDelimited d bs) = macKey bs
    ∧ macLookupKey (macPlain bs) = macKey bs := by
  constructor
  · have h2 : 2 ≤ (bs.map renderGroup).length := by simp [h6]
    have hg : ∀ g ∈ bs.map renderGroup, ':' ∉ g ∧ '-' ∉ g ∧ '.' ∉ g := by
      intro g hgm
      obtain ⟨g0, hg0, rfl⟩ := List.mem_map.mp hgm
      exact renderGroup_no_delim g0 (hok g0 hg0)
    rw [macDelimited, macLookupKey_joinWith d hd _ h2 hg]
    rw [List.map_map, ← map_take_aux, pyUpper_concatAll, List.map_map, macKey]
    congr 1
    apply map_congr_mem
    intro g0 hg0
    simp only [Function.comp_apply]
    exact renderGroup_upper_zfill g0 (hok g0 (List.take_subset 3 bs hg0))
  · have hnd : ':' ∉ concatAll (bs.map renderPlainGroup)
        ∧ '-' ∉ concatAll (bs.map renderPlainGroup)
        ∧ '.' ∉ concatAll (bs.map renderPlainGroup) := by
      refine ⟨?_, ?_, ?_⟩ <;> intro hc <;>
        obtain ⟨l, hl, hcl⟩ := mem_concatAll.mp hc <;>
        obtain ⟨g0, hg0, rfl⟩ := List.mem_map.mp hl
      · exact (renderPlainGroup_no_delim g0 (hok g0 hg0)).1 hcl
      · exact (renderPlainGroup_no_delim g0 (hok g0 hg0)).2.1 hcl
      · exact (renderPlainGroup_no_delim g0 (hok g0 hg0)).2.2 hcl
    rw [macPlain, macLookupKey_no_delim _ hnd]
    rw [pyUpper_concatAll, List.map_map]
    rw [take_six_concatAll]
    · rw [← map_take_aux, macKey]
      congr 1
      apply map_congr_mem
      intro g0 hg0
      simp only [Function.comp_apply]
      exact renderPlainGroup_upper g0 (hok g0 (List.take_subset 3 bs hg0))
    · simp [h6]
    · intro g hg
      rw [← map_take_aux] at hg
      obtain ⟨g0, hg0, rfl⟩ := List.mem_map.mp hg
      simp [Function.comp_apply, pyUpper, renderPlainGroup]

/-- Witness for claim C1: the claim's own examples, `E0:43:DB:12:34:56`
and the short-group form `0:3:47:0:0:0`. -/
theorem claim_C1_witness :
    macLookupKey (macDelimited ':' bsC) = macKey bsC
    ∧ macDelimited ':' bsC = strL "E0:43:DB:12:34:56"
    ∧ macKey bsC = strL "E043DB"
    ∧ macLookupKey (macDelimited ':' bsShortC) = macKey bsShortC
    ∧ macDelimited ':' bsShortC = strL "0:3:47:0:0:0"
    ∧ macKey bsShortC = strL "000347" :=
  ⟨(claim_C1 ':' (Or.inl rfl) bsC rfl (by decide)).1, by decide, by decide,
   (claim_C1 ':' (Or.inl rfl) bsShortC rfl (by decide)).1, by decide, by decide⟩
